import Mathlib

/-!
Verification development for the Fish Finder asynchronous upload/poll
pipeline.  Shallow embedding of:

- the mobile client poll loop (`src/mobile/src/services/api.ts`, `pollResults`);
- the webapp poll loop (`app.js`, `pollForResults`);
- the HomeScreen upload state machine (`src/mobile/src/screens/HomeScreen.tsx`);
- the SQS main queue / dead-letter queue configuration (terraform);
- the S3 bucket notification configuration (`s3.tf`);
- the result store (`dynamodb.tf` together with the PutResult/GetStatus of the spec);
- the Cognito auth facade (`auth.ts`, `getCurrentUser`).

Both clients compare the status field of a poll response body against
string literals, so poll responses are embedded with a `String` status.
A poll run is driven by a stream `Nat → PollResponse` giving the parsed
body of the n-th HTTP poll request (transport-level failures abort both
loops and are outside the claims considered here).
-/

/-! ## Definitions -/

/-! ### Mobile poll loop (`pollResults` in `api.ts`) -/

/-- Fish identification result returned by the backend
(`FishResult` in `api.ts`). -/
structure FishResult where
  species : String
  hebrew_name : String
  native : Bool
  population : String
  avg_size_cm : Int
  min_size_cm : Int
  seasonal_ban : Option String
  notes : String
  description : String
deriving DecidableEq

/-- Raw polling response envelope (`PollResponse` in `api.ts`); the webapp
reads the same wire shape untyped, so `status` is a plain string. -/
structure PollResponse where
  status : String
  result : Option FishResult
  error : Option String
deriving DecidableEq

/-- Outcome of the mobile `pollResults` promise, tagged by exit point:
`done r` is the `return data.result` exit, `serverError msg` the
`throw` on a body with status "error", `timeout` the `throw` after the loop. -/
inductive MobilePollOutcome where
  | done (r : FishResult)
  | serverError (msg : String)
  | timeout
deriving DecidableEq

/-- `POLL_INTERVAL_MS` constant of `pollResults` in `api.ts`. -/
def POLL_INTERVAL_MS : Nat := 3000

/-- Default `maxAttempts` of `pollResults` in `api.ts`. -/
def MOBILE_MAX_ATTEMPTS : Nat := 20

/-- The body of one iteration of the mobile poll loop (`api.ts` lines
184-197): `some out` means the iteration exits the loop with `out`,
`none` means the loop falls through to the next attempt. -/
def mobileClassify (data : PollResponse) : Option MobilePollOutcome :=
  match data.status == "completed", data.result with
  | true, some r => some (MobilePollOutcome.done r)
  | _, _ =>
    if data.status == "error" then
      some (MobilePollOutcome.serverError
        (data.error.getD "Fish identification failed on the server."))
    else
      none

/-- The mobile `for` loop of `pollResults`, with `fuel` remaining
attempts (the current one included) and `attempt` the 1-based attempt
counter; fuel 0 is the fall-through to the timeout `throw`. -/
def pollResultsFrom (responses : Nat → PollResponse) : Nat → Nat → MobilePollOutcome
  | 0, _ => MobilePollOutcome.timeout
  | fuel + 1, attempt =>
    match mobileClassify (responses attempt) with
    | some out => out
    | none => pollResultsFrom responses fuel (attempt + 1)

/-- `pollResults(image_id, maxAttempts)` of `api.ts`, as a function of the
stream of poll response bodies. -/
def pollResults (responses : Nat → PollResponse) (maxAttempts : Nat) : MobilePollOutcome :=
  pollResultsFrom responses maxAttempts 1

/-- Number of poll requests the mobile loop performs. -/
def pollAttemptsUsed (responses : Nat → PollResponse) : Nat → Nat → Nat
  | 0, _ => 0
  | fuel + 1, attempt =>
    match mobileClassify (responses attempt) with
    | some _ => 1
    | none => 1 + pollAttemptsUsed responses fuel (attempt + 1)

/-- Number of 3-second delays the mobile loop performs: `api.ts` delays
only when the iteration falls through and `attempt < maxAttempts`. -/
def pollDelayCount (responses : Nat → PollResponse) (maxAttempts : Nat) : Nat → Nat → Nat
  | 0, _ => 0
  | fuel + 1, attempt =>
    match mobileClassify (responses attempt) with
    | some _ => 0
    | none =>
      (if attempt < maxAttempts then 1 else 0)
        + pollDelayCount responses maxAttempts fuel (attempt + 1)

/-- Total time the mobile loop spends suspended between requests, in ms. -/
def pollElapsedMs (responses : Nat → PollResponse) (maxAttempts : Nat) : Nat :=
  POLL_INTERVAL_MS * pollDelayCount responses maxAttempts maxAttempts 1

/-- The timeout message thrown after the loop in `api.ts`. -/
def timeoutMessage (maxAttempts : Nat) : String :=
  "Identification timed out after " ++ toString maxAttempts ++ " attempts (~"
    ++ toString (maxAttempts * POLL_INTERVAL_MS / 1000) ++ "s). Please try again."

/-- The mobile poll promise as seen by its caller: a resolution with the
result or a rejection carrying only an `Error` message string. -/
def pollResultsExcept (responses : Nat → PollResponse) (maxAttempts : Nat) :
    Except String FishResult :=
  match pollResults responses maxAttempts with
  | MobilePollOutcome.done r => Except.ok r
  | MobilePollOutcome.serverError msg => Except.error msg
  | MobilePollOutcome.timeout => Except.error (timeoutMessage maxAttempts)

/-! ### Webapp poll loop (`pollForResults` in `app.js`) -/

/-- `POLL_MAX_ATTEMPTS` constant of `app.js`. -/
def POLL_MAX_ATTEMPTS : Nat := 40

/-- Outcome of the webapp `pollForResults` promise: `resolved data` is the
`displayResults(data); resolve()` exit on `status === "ready"`; `timedOut`
the rejection once `attempts >= POLL_MAX_ATTEMPTS`. -/
inductive WebPollOutcome where
  | resolved (data : PollResponse)
  | timedOut
deriving DecidableEq

/-- The `setInterval` tick loop of `pollForResults` in `app.js`: `tick` is
the value of `attempts` after the increment at the top of the tick; each
tick resolves on `status === "ready"`, rejects with the timeout message
once `maxAttempts ≤ tick`, and otherwise waits for the next tick.  `fuel`
bounds the recursion; it is never exhausted when the loop is entered with
`fuel = maxAttempts` and `tick = 1`. -/
def webPollFrom (responses : Nat → PollResponse) (maxAttempts : Nat) :
    Nat → Nat → WebPollOutcome
  | 0, tick =>
    if (responses tick).status == "ready" then WebPollOutcome.resolved (responses tick)
    else WebPollOutcome.timedOut
  | fuel + 1, tick =>
    if (responses tick).status == "ready" then WebPollOutcome.resolved (responses tick)
    else if maxAttempts ≤ tick then WebPollOutcome.timedOut
    else webPollFrom responses maxAttempts fuel (tick + 1)

/-- `pollForResults(image_id)` of `app.js`, as a function of the stream of
poll response bodies. -/
def pollForResults (responses : Nat → PollResponse) : WebPollOutcome :=
  webPollFrom responses POLL_MAX_ATTEMPTS POLL_MAX_ATTEMPTS 1

/-- Number of poll requests the webapp loop performs. -/
def webAttemptsUsed (responses : Nat → PollResponse) (maxAttempts : Nat) :
    Nat → Nat → Nat
  | 0, _ => 1
  | fuel + 1, tick =>
    if (responses tick).status == "ready" then 1
    else if maxAttempts ≤ tick then 1
    else 1 + webAttemptsUsed responses maxAttempts fuel (tick + 1)

/-! ### HomeScreen upload state machine (`HomeScreen.tsx`) -/

/-- `type UploadState` of `HomeScreen.tsx` line 52: exactly these five
progress states; there is no separate timeout state. -/
inductive UploadState where
  | idle
  | uploading
  | processing
  | done
  | error
deriving DecidableEq

/-- The tail of `handleIdentify` in `HomeScreen.tsx`: a resolved poll
promise sets state `done`; the `catch` block maps every rejection —
server-reported error and timeout alike — to state `error`, storing the
rejection message as `errorMessage`. -/
def homeScreenFinal : Except String FishResult → UploadState × Option String
  | Except.ok _ => (UploadState.done, none)
  | Except.error msg => (UploadState.error, some msg)

/-! ### Common classification view of the two loop bodies -/

/-- How a poll-loop body reacts to one response body. -/
inductive PollClass where
  | terminalSuccess
  | terminalError
  | continuePolling
deriving DecidableEq

/-- Classification performed by the mobile loop body, projected from
`mobileClassify` (the loop body of `pollResults`). -/
def mobileClass (data : PollResponse) : PollClass :=
  match mobileClassify data with
  | some (MobilePollOutcome.done _) => PollClass.terminalSuccess
  | some (MobilePollOutcome.serverError _) => PollClass.terminalError
  | some MobilePollOutcome.timeout => PollClass.terminalError
  | none => PollClass.continuePolling

/-- Classification performed by the webapp loop body (`app.js` lines
634-645): only `status === "ready"` exits the loop as success; no body
status is treated as a terminal error. -/
def webappClass (data : PollResponse) : PollClass :=
  if data.status == "ready" then PollClass.terminalSuccess
  else PollClass.continuePolling

/-- A concrete fish record used for closed counterexample statements. -/
def sampleFish : FishResult :=
  ⟨"Sparus aurata", "denis", true, "Stable", 35, 0, none, "", ""⟩

/-- A response stream whose every body is `status:"error"` with detail. -/
def errorStream : Nat → PollResponse :=
  fun _ => ⟨"error", none, some "decode failed"⟩

/-- A response stream whose every body is `status:"completed"` carrying a
result payload. -/
def completedStream : Nat → PollResponse :=
  fun _ => ⟨"completed", some sampleFish, none⟩

/-- A response stream whose every body is `status:"completed"` with the
`result` field absent. -/
def completedNoResultStream : Nat → PollResponse :=
  fun _ => ⟨"completed", none, none⟩

/-- A response stream whose every body is `status:"pending"`. -/
def pendingStream : Nat → PollResponse :=
  fun _ => ⟨"pending", none, none⟩

/-- A response stream whose every body is `status:"ready"` (the webapp
completion value of the webapp backend, see `docs/api.md`). -/
def readyStream : Nat → PollResponse :=
  fun _ => ⟨"ready", some sampleFish, none⟩

/-! ### Durable work queue (SQS main queue + dead-letter queue)

The terraform in the repository declares the queue pair and its redrive
policy; the delivery mechanism itself is the managed SQS service. -/

/-- `maxReceiveCount` of the `redrive_policy` of `aws_sqs_queue.fish_queue`. -/
def maxReceiveCount : Nat := 3

/-- Lifecycle position of one queue message: waiting in the main queue,
leased to a worker (in flight), acknowledged (deleted), or withdrawn to
the dead-letter holding area.  Each position carries the
`delivery_count` — the number of times a lease on it has expired
unacknowledged. -/
inductive MsgState where
  | inQueue (delivery_count : Nat)
  | inFlight (delivery_count : Nat)
  | acked (delivery_count : Nat)
  | deadLetter (delivery_count : Nat)
deriving DecidableEq

/-- Events on a single queue message. -/
inductive QEvent where
  | deliver
  | ack
  | expire
deriving DecidableEq

/-- Modelled from the spec: the SQS lease/redrive mechanism is the managed
service, not repository code; only its configuration (`maxReceiveCount = 3`)
is declared in the terraform.  Per spec §4.2 / §3: a message in the main
queue can be delivered (leased); an unacknowledged lease expiry increments
`delivery_count` and the message is moved to the dead-letter holding area
once `delivery_count` exceeds the threshold, otherwise it returns to the
main queue; `Ack` permanently removes it.  `none` means the event is not
enabled in the given state — in particular nothing is enabled in the
dead-letter holding area. -/
def qStep : MsgState → QEvent → Option MsgState
  | MsgState.inQueue c, QEvent.deliver => some (MsgState.inFlight c)
  | MsgState.inFlight c, QEvent.ack => some (MsgState.acked c)
  | MsgState.inFlight c, QEvent.expire =>
    if maxReceiveCount < c + 1 then some (MsgState.deadLetter (c + 1))
    else some (MsgState.inQueue (c + 1))
  | _, _ => none

/-- Run a sequence of events on a message; `none` when some event in the
sequence is not enabled. -/
def qRun : MsgState → List QEvent → Option MsgState
  | s, [] => some s
  | s, e :: es =>
    match qStep s e with
    | some s2 => qRun s2 es
    | none => none

/-- The `delivery_count` recorded in a message state. -/
def deliveryCount : MsgState → Nat
  | MsgState.inQueue c => c
  | MsgState.inFlight c => c
  | MsgState.acked c => c
  | MsgState.deadLetter c => c

/-- Whether a message state is the dead-letter holding area. -/
def isDeadLetter : MsgState → Bool
  | MsgState.deadLetter _ => true
  | _ => false

/-- Invariant of the queue lifecycle: outside the dead-letter holding area
the delivery count never exceeds the threshold, and a dead-lettered
message was withdrawn exactly when its count first exceeded it. -/
def qInv : MsgState → Prop
  | MsgState.deadLetter c => c = maxReceiveCount + 1
  | s => deliveryCount s ≤ maxReceiveCount

/-! ### S3 object-created notification (`s3.tf`) -/

/-- One `queue { ... }` block of an `aws_s3_bucket_notification`. -/
structure QueueNotificationConfig where
  queue_arn : String
  events : List String
deriving DecidableEq

/-- The notification configuration of `aws_s3_bucket_notification.bucket_notification`
in `s3.tf`: a single queue target receiving every `s3:ObjectCreated:*` event. -/
def bucketNotification : List QueueNotificationConfig :=
  [⟨"aws_sqs_queue.fish_queue", ["s3:ObjectCreated:*"]⟩]

/-- The kinds of successful object-write operations S3 reports as
object-created events. -/
inductive S3WriteOp where
  | put
  | post
  | copy
  | completeMultipartUpload
deriving DecidableEq

/-- Event name S3 attaches to a successful object write. -/
def s3EventName : S3WriteOp → String
  | S3WriteOp.put => "s3:ObjectCreated:Put"
  | S3WriteOp.post => "s3:ObjectCreated:Post"
  | S3WriteOp.copy => "s3:ObjectCreated:Copy"
  | S3WriteOp.completeMultipartUpload => "s3:ObjectCreated:CompleteMultipartUpload"

/-- S3 event-pattern matching: a trailing `*` matches any suffix
(computed on the underlying character lists). -/
def eventPatternMatches (pat eventName : String) : Bool :=
  if pat.data.getLast? = some '*' then
    List.isPrefixOf pat.data.dropLast eventName.data
  else pat == eventName

/-- Modelled from the spec: the delivery of bucket notifications is the
managed S3 service, not repository code; only the configuration above is
declared in `s3.tf`.  Per spec §4.2, a successful object write produces
one QueueMessage on every configured queue whose event list matches the
event (`(queue_arn, object key)` pairs here). -/
def messagesForEvent (cfgs : List QueueNotificationConfig)
    (eventName key : String) : List (String × String) :=
  (cfgs.filter (fun c => c.events.any (fun p => eventPatternMatches p eventName))).map
    (fun c => (c.queue_arn, key))

/-! ### Result store (`dynamodb.tf` + spec §4.4) -/

/-- Status of a `ResultRecord` (spec §3). -/
inductive RecStatus where
  | pending
  | processing
  | completed
  | error
deriving DecidableEq

/-- `ResultRecord` of spec §3 (the DynamoDB item keyed by `ImageId`);
the payload is kept opaque. -/
structure ResultRecord where
  status : RecStatus
  payload : Option String
  error_detail : Option String
  updated_at : Nat
deriving DecidableEq

/-- The result store: a key-value mapping from work-item id to record;
`dynamodb.tf` declares exactly a hash-keyed table with no range key. -/
def ResultStore : Type := String → Option ResultRecord

/-- Modelled from the spec: the Flask/worker code performing the DynamoDB
writes is not under `src/`; spec §4.4 defines `PutResult` as a
full-record overwrite, last-writer-wins, with no conditional semantics. -/
def PutResult (store : ResultStore) (work_item_id : String) (record : ResultRecord) :
    ResultStore :=
  fun q => if q = work_item_id then some record else store q

/-- Modelled from the spec: `GetStatus(work_item_id) → ResultRecord | NotFound`
(spec §4.4), a plain read of the stored record. -/
def GetStatus (store : ResultStore) (work_item_id : String) : Option ResultRecord :=
  store work_item_id

/-- Status visible for a key: absence of a record is implicit `pending`
(spec §3). -/
def statusOf (store : ResultStore) (work_item_id : String) : RecStatus :=
  match store work_item_id with
  | some r => r.status
  | none => RecStatus.pending

/-- Sequence of visible statuses along a sequence of `PutResult` writes
for one key (the status before any write, then after each write). -/
def statusTrace : ResultStore → String → List ResultRecord → List RecStatus
  | store, k, [] => [statusOf store k]
  | store, k, r :: rs => statusOf store k :: statusTrace (PutResult store k r) k rs

/-- Forward order of statuses: `pending → processing → {completed, error}`. -/
def statusRank : RecStatus → Nat
  | RecStatus.pending => 0
  | RecStatus.processing => 1
  | RecStatus.completed => 2
  | RecStatus.error => 2

/-- Adjacent transitions of a status list only ever move forward. -/
def chainMonotone : List RecStatus → Bool
  | a :: b :: rest => decide (statusRank a ≤ statusRank b) && chainMonotone (b :: rest)
  | _ => true

/-- No adjacent transition leaves a terminal status for anything else
(in particular no `completed → error` and no `error → completed`). -/
def chainNoFlip : List RecStatus → Bool
  | a :: b :: rest =>
    (!(decide (a = RecStatus.completed)) || decide (b = RecStatus.completed))
      && ((!(decide (a = RecStatus.error))) || decide (b = RecStatus.error))
      && chainNoFlip (b :: rest)
  | _ => true

/-! ### Auth facade (`getCurrentUser` in `auth.ts`) -/

/-- The value Amplify v6 `getCurrentUser()` resolves with
(`{ userId, username, signInDetails }`; `signInDetails` unused here). -/
structure AmplifyUser where
  userId : String
  username : String
deriving DecidableEq

/-- Modelled from the spec: the `@aws-amplify/auth` SDK is an external
collaborator; per its documented behaviour (quoted in `auth.ts`), its
`getCurrentUser()` resolves with the user of the authenticated session
and throws when there is no authenticated user.  A session state is the
authenticated user, if any. -/
def amplifyGetCurrentUser : Option AmplifyUser → Except String AmplifyUser
  | some u => Except.ok u
  | none => Except.error "UserUnAuthenticatedException"

/-- The info record the facade returns: for the email-based user pool of
`cognito.tf` (`username_attributes = ["email"]`) the Cognito username is
the email address. -/
structure CurrentUserInfo where
  email : String
deriving DecidableEq

/-- `getCurrentUser` of `auth.ts`: wraps the SDK call in a try/catch and
returns `null` instead of propagating the SDK exception. -/
def getCurrentUser (session : Option AmplifyUser) : Option CurrentUserInfo :=
  match amplifyGetCurrentUser session with
  | Except.ok u => some ⟨u.username⟩
  | Except.error _ => none

/-! ## Theorems -/

/-! ### Helper lemmas about the mobile loop body -/

theorem mobileClassify_of_completed (d : PollResponse) (r : FishResult)
    (h1 : d.status = "completed") (h2 : d.result = some r) :
    mobileClassify d = some (MobilePollOutcome.done r) := by
  cases d with
  | mk st res e =>
    dsimp only at h1 h2
    subst h1
    subst h2
    rfl

theorem mobileClassify_of_error (d : PollResponse) (h : d.status = "error") :
    mobileClassify d = some (MobilePollOutcome.serverError
      (d.error.getD "Fish identification failed on the server.")) := by
  cases d with
  | mk st res e =>
    dsimp only at h
    subst h
    cases res <;> rfl

theorem mobileClassify_of_pending (d : PollResponse) (h : d.status = "pending") :
    mobileClassify d = none := by
  cases d with
  | mk st res e =>
    dsimp only at h
    subst h
    cases res <;> rfl

theorem mobileClassify_of_processing (d : PollResponse) (h : d.status = "processing") :
    mobileClassify d = none := by
  cases d with
  | mk st res e =>
    dsimp only at h
    subst h
    cases res <;> rfl

theorem pollResultsFrom_all_none (responses : Nat → PollResponse)
    (h : ∀ k, mobileClassify (responses k) = none) :
    ∀ fuel attempt, pollResultsFrom responses fuel attempt = MobilePollOutcome.timeout := by
  intro fuel
  induction fuel with
  | zero => intro a; rfl
  | succ f ih =>
    intro a
    simp only [pollResultsFrom, h a]
    exact ih (a + 1)

theorem pollAttemptsUsed_le (responses : Nat → PollResponse) :
    ∀ fuel attempt, pollAttemptsUsed responses fuel attempt ≤ fuel := by
  intro fuel
  induction fuel with
  | zero => intro attempt; simp [pollAttemptsUsed]
  | succ f ih =>
    intro attempt
    cases h : mobileClassify (responses attempt) with
    | none =>
      have := ih (attempt + 1)
      simp only [pollAttemptsUsed, h]
      omega
    | some out =>
      simp only [pollAttemptsUsed, h]
      omega

theorem pollDelayCount_le (responses : Nat → PollResponse) (maxAttempts : Nat) :
    ∀ f attempt, attempt + f = maxAttempts →
      pollDelayCount responses maxAttempts (f + 1) attempt ≤ f := by
  intro f
  induction f with
  | zero =>
    intro attempt ha
    have hlt : ¬ attempt < maxAttempts := by omega
    cases h : mobileClassify (responses attempt) with
    | none => simp [pollDelayCount, h, hlt]
    | some out => simp [pollDelayCount, h]
  | succ f ih =>
    intro attempt ha
    cases h : mobileClassify (responses attempt) with
    | none =>
      have hlt : attempt < maxAttempts := by omega
      have := ih (attempt + 1) (by omega)
      rw [pollDelayCount]
      simp only [h, if_pos hlt]
      omega
    | some out =>
      simp only [pollDelayCount, h]
      omega

/-! ### Helper lemmas about the webapp loop -/

theorem webPollFrom_ready (responses : Nat → PollResponse) (maxAttempts fuel tick : Nat)
    (h : (responses tick).status = "ready") :
    webPollFrom responses maxAttempts fuel tick = WebPollOutcome.resolved (responses tick) := by
  cases fuel <;> simp [webPollFrom, h]

theorem webappClass_of_not_ready (d : PollResponse) (h : d.status ≠ "ready") :
    webappClass d = PollClass.continuePolling := by
  simp [webappClass, h]

/-! ### Helper lemmas about the queue lifecycle -/

theorem qStep_preserves_inv (s : MsgState) (e : QEvent) (s2 : MsgState)
    (hinv : qInv s) (h : qStep s e = some s2) : qInv s2 := by
  cases s with
  | inQueue c =>
    cases e with
    | deliver =>
      simp only [qStep, Option.some.injEq] at h
      subst h
      simpa [qInv, deliveryCount] using hinv
    | ack => simp [qStep] at h
    | expire => simp [qStep] at h
  | inFlight c =>
    cases e with
    | deliver => simp [qStep] at h
    | ack =>
      simp only [qStep, Option.some.injEq] at h
      subst h
      simpa [qInv, deliveryCount] using hinv
    | expire =>
      have hle : c ≤ maxReceiveCount := by simpa [qInv, deliveryCount] using hinv
      simp only [qStep] at h
      split at h
      · rename_i hc
        simp only [Option.some.injEq] at h
        subst h
        simp only [qInv]
        omega
      · rename_i hc
        simp only [Option.some.injEq] at h
        subst h
        simp only [qInv, deliveryCount]
        omega
  | acked c => cases e <;> simp [qStep] at h
  | deadLetter c => cases e <;> simp [qStep] at h

theorem qRun_preserves_inv (es : List QEvent) :
    ∀ s s2, qInv s → qRun s es = some s2 → qInv s2 := by
  induction es with
  | nil =>
    intro s s2 hinv h
    simp only [qRun, Option.some.injEq] at h
    subst h
    exact hinv
  | cons e es ih =>
    intro s s2 hinv h
    cases hs : qStep s e with
    | none => simp [qRun, hs] at h
    | some s1 =>
      simp only [qRun, hs] at h
      exact ih s1 s2 (qStep_preserves_inv s e s1 hinv hs) h

theorem qRun_deadLetter_frozen (c : Nat) (es : List QEvent) (s2 : MsgState)
    (h : qRun (MsgState.deadLetter c) es = some s2) :
    es = [] ∧ s2 = MsgState.deadLetter c := by
  cases es with
  | nil =>
    simp only [qRun, Option.some.injEq] at h
    exact ⟨rfl, h.symm⟩
  | cons e es => cases e <;> simp [qRun, qStep] at h

/-! ### Helper lemmas about the result store -/

theorem PutResult_self (store : ResultStore) (k : String) (r : ResultRecord) :
    (PutResult store k r) k = some r := by
  simp [PutResult]

theorem statusTrace_const (r : ResultRecord) :
    ∀ (n : Nat) (store : ResultStore) (k : String), store k = some r →
      statusTrace store k (List.replicate n r) = List.replicate (n + 1) r.status := by
  intro n
  induction n with
  | zero =>
    intro store k h
    simp [statusTrace, statusOf, h, List.replicate]
  | succ m ih =>
    intro store k h
    rw [List.replicate_succ]
    show statusOf store k
        :: statusTrace (PutResult store k r) k (List.replicate m r)
        = List.replicate (m + 1 + 1) r.status
    rw [ih (PutResult store k r) k (PutResult_self store k r)]
    rw [List.replicate_succ (r.status) (m + 1)]
    simp [statusOf, h]

theorem chainMonotone_replicate (c : RecStatus) :
    ∀ n, chainMonotone (List.replicate n c) = true := by
  intro n
  induction n with
  | zero => rfl
  | succ m ih =>
    cases m with
    | zero => rfl
    | succ m2 =>
      have hrep : List.replicate (m2 + 1 + 1) c = c :: (c :: List.replicate m2 c) := by
        rw [List.replicate_succ, List.replicate_succ]
      rw [hrep]
      show (decide (statusRank c ≤ statusRank c)
          && chainMonotone (c :: List.replicate m2 c)) = true
      rw [← List.replicate_succ]
      rw [ih]
      simp

theorem chainNoFlip_replicate (c : RecStatus) :
    ∀ n, chainNoFlip (List.replicate n c) = true := by
  intro n
  induction n with
  | zero => rfl
  | succ m ih =>
    cases m with
    | zero => rfl
    | succ m2 =>
      have hrep : List.replicate (m2 + 1 + 1) c = c :: (c :: List.replicate m2 c) := by
        rw [List.replicate_succ, List.replicate_succ]
      rw [hrep]
      show ((!(decide (c = RecStatus.completed)) || decide (c = RecStatus.completed))
          && ((!(decide (c = RecStatus.error))) || decide (c = RecStatus.error))
          && chainNoFlip (c :: List.replicate m2 c)) = true
      rw [← List.replicate_succ]
      rw [ih]
      cases c <;> simp

theorem chainMonotone_pending_cons (c : RecStatus) (n : Nat) :
    chainMonotone (RecStatus.pending :: List.replicate (n + 1) c) = true := by
  rw [List.replicate_succ]
  show (decide (statusRank RecStatus.pending ≤ statusRank c)
      && chainMonotone (c :: List.replicate n c)) = true
  rw [← List.replicate_succ, chainMonotone_replicate]
  cases c <;> simp [statusRank]

theorem chainNoFlip_pending_cons (c : RecStatus) (n : Nat) :
    chainNoFlip (RecStatus.pending :: List.replicate (n + 1) c) = true := by
  rw [List.replicate_succ]
  show ((!(decide (RecStatus.pending = RecStatus.completed))
          || decide (c = RecStatus.completed))
      && ((!(decide (RecStatus.pending = RecStatus.error))) || decide (c = RecStatus.error))
      && chainNoFlip (c :: List.replicate n c)) = true
  rw [← List.replicate_succ, chainNoFlip_replicate]
  simp

/-! ### Claim C1 -/

/-- C1 counterexample: on a stream whose every body has the
server-reported error status, the mobile loop rejects immediately with
the error detail, but the webapp `pollForResults` never surfaces the
error: it classifies the body as continue-polling, performs all 40
attempts, and rejects with its timeout message instead.  So the claim
does not hold for every client poll loop in the system. -/
theorem webapp_ignores_error_status_cex :
    pollResults errorStream MOBILE_MAX_ATTEMPTS = MobilePollOutcome.serverError "decode failed"
    ∧ webappClass (errorStream 1) = PollClass.continuePolling
    ∧ pollForResults errorStream = WebPollOutcome.timedOut
    ∧ webAttemptsUsed errorStream POLL_MAX_ATTEMPTS POLL_MAX_ATTEMPTS 1 = 40 :=
  ⟨rfl, rfl, rfl, rfl⟩

/-- C1 (amended): the mobile `pollResults` terminates immediately in the
terminal error state on a response whose status is `"error"`, surfacing
the error detail (with the literal fallback message when the detail is
absent); the webapp `pollForResults` has no error-status branch and
classifies such a response as continue-polling. -/
theorem error_status_terminal_mobile_only (responses : Nat → PollResponse)
    (fuel attempt : Nat) (h : (responses attempt).status = "error") :
    pollResultsFrom responses (fuel + 1) attempt
        = MobilePollOutcome.serverError
            ((responses attempt).error.getD "Fish identification failed on the server.")
    ∧ webappClass (responses attempt) = PollClass.continuePolling := by
  constructor
  · have hc := mobileClassify_of_error (responses attempt) h
    simp [pollResultsFrom, hc]
  · exact webappClass_of_not_ready _ (by rw [h]; decide)

/-- Witness for the amended C1 theorem at a concrete input. -/
theorem error_status_terminal_mobile_only_witness :
    pollResultsFrom errorStream (0 + 1) 1
        = MobilePollOutcome.serverError
            ((errorStream 1).error.getD "Fish identification failed on the server.")
    ∧ webappClass (errorStream 1) = PollClass.continuePolling :=
  error_status_terminal_mobile_only errorStream 0 1 rfl

/-! ### Claim C2 -/

/-- C2: once the `delivery_count` of a message exceeds the threshold 3 it is
moved to the dead-letter holding area and is never delivered again from
the main queue: the lease expiry that takes the count past
`maxReceiveCount` lands in the dead-letter state, no event at all (in
particular no `deliver`) is enabled there, a run from the dead-letter
state admits no event, and along every run from a fresh message any
state whose count exceeds the threshold is the dead-letter state. -/
theorem dead_letter_after_threshold (es : List QEvent) (s2 : MsgState)
    (h : qRun (MsgState.inQueue 0) es = some s2) :
    qStep (MsgState.inFlight maxReceiveCount) QEvent.expire
        = some (MsgState.deadLetter (maxReceiveCount + 1))
    ∧ (∀ c e, qStep (MsgState.deadLetter c) e = none)
    ∧ (maxReceiveCount < deliveryCount s2 → s2 = MsgState.deadLetter (deliveryCount s2))
    ∧ (∀ c es2 s3, qRun (MsgState.deadLetter c) es2 = some s3 →
        es2 = [] ∧ s3 = MsgState.deadLetter c) := by
  refine ⟨rfl, fun c e => by cases e <;> rfl, ?_, fun c es2 s3 hh => qRun_deadLetter_frozen c es2 s3 hh⟩
  intro hgt
  have hinv : qInv s2 := qRun_preserves_inv es (MsgState.inQueue 0) s2 (by simp [qInv, deliveryCount]) h
  cases s2 with
  | inQueue c => exfalso; simp [qInv, deliveryCount] at hinv hgt; omega
  | inFlight c => exfalso; simp [qInv, deliveryCount] at hinv hgt; omega
  | acked c => exfalso; simp [qInv, deliveryCount] at hinv hgt; omega
  | deadLetter c => rfl

/-- Witness for C2 at a concrete run: four deliveries each followed by an
unacknowledged lease expiry put the message in the dead-letter area. -/
theorem dead_letter_after_threshold_witness :
    qStep (MsgState.inFlight maxReceiveCount) QEvent.expire
        = some (MsgState.deadLetter (maxReceiveCount + 1))
    ∧ (∀ c e, qStep (MsgState.deadLetter c) e = none)
    ∧ (maxReceiveCount < deliveryCount (MsgState.deadLetter 4) →
        MsgState.deadLetter 4 = MsgState.deadLetter (deliveryCount (MsgState.deadLetter 4)))
    ∧ (∀ c es2 s3, qRun (MsgState.deadLetter c) es2 = some s3 →
        es2 = [] ∧ s3 = MsgState.deadLetter c) :=
  dead_letter_after_threshold
    [QEvent.deliver, QEvent.expire, QEvent.deliver, QEvent.expire,
     QEvent.deliver, QEvent.expire, QEvent.deliver, QEvent.expire]
    (MsgState.deadLetter 4) rfl

/-! ### Claim C3 -/

/-- C3: the mobile poll loop always terminates: with the default limit of
20 attempts it performs at most 20 requests, spends at most 57 s (hence
at most 60 s) suspended between requests, ends in one of the three
terminal outcomes done / error / timeout, classifies every `pending` and
`processing` body as non-terminal (continue polling), and performs no
further attempt once the attempts are exhausted. -/
theorem pollResults_bounded_termination (responses : Nat → PollResponse) :
    pollAttemptsUsed responses MOBILE_MAX_ATTEMPTS 1 ≤ MOBILE_MAX_ATTEMPTS
    ∧ pollElapsedMs responses MOBILE_MAX_ATTEMPTS ≤ 57000
    ∧ pollElapsedMs responses MOBILE_MAX_ATTEMPTS ≤ 60000
    ∧ ((∃ r, pollResults responses MOBILE_MAX_ATTEMPTS = MobilePollOutcome.done r)
        ∨ (∃ msg, pollResults responses MOBILE_MAX_ATTEMPTS = MobilePollOutcome.serverError msg)
        ∨ pollResults responses MOBILE_MAX_ATTEMPTS = MobilePollOutcome.timeout)
    ∧ (∀ res e, mobileClassify ⟨"pending", res, e⟩ = none
        ∧ mobileClassify ⟨"processing", res, e⟩ = none)
    ∧ (∀ a, pollResultsFrom responses 0 a = MobilePollOutcome.timeout) := by
  have hd : pollDelayCount responses MOBILE_MAX_ATTEMPTS MOBILE_MAX_ATTEMPTS 1 ≤ 19 :=
    pollDelayCount_le responses MOBILE_MAX_ATTEMPTS 19 1 rfl
  have he : pollElapsedMs responses MOBILE_MAX_ATTEMPTS ≤ 57000 := by
    simp only [pollElapsedMs, POLL_INTERVAL_MS]
    omega
  refine ⟨pollAttemptsUsed_le responses MOBILE_MAX_ATTEMPTS 1, he, le_trans he (by omega),
      ?_, ?_, fun a => rfl⟩
  · cases hp : pollResults responses MOBILE_MAX_ATTEMPTS with
    | done r => exact Or.inl ⟨r, rfl⟩
    | serverError msg => exact Or.inr (Or.inl ⟨msg, rfl⟩)
    | timeout => exact Or.inr (Or.inr rfl)
  · intro res e
    exact ⟨mobileClassify_of_pending ⟨"pending", res, e⟩ rfl,
      mobileClassify_of_processing ⟨"processing", res, e⟩ rfl⟩

/-! ### Claim C4 -/

/-- C4 counterexample: a response whose status is the completed status but
whose `result` field is absent does not terminate the mobile loop in the
done state — `api.ts` line 186 requires a "completed" status AND
data.result`, so the body classifies as continue-polling and a stream of
such responses ends in the timeout rejection. -/
theorem completed_without_result_times_out_cex :
    mobileClassify (completedNoResultStream 1) = none
    ∧ pollResults completedNoResultStream MOBILE_MAX_ATTEMPTS = MobilePollOutcome.timeout :=
  ⟨rfl, rfl⟩

/-- C4 (amended): a poll response whose status is the completed status
and which carries a result payload terminates the mobile loop in the
terminal done state surfacing that payload; the webapp loop resolves,
surfacing the whole body, on a response carrying the completion
status value `"ready"`. -/
theorem completed_with_result_terminal_done (responses wresponses : Nat → PollResponse)
    (fuel attempt wfuel wtick wmax : Nat) (r : FishResult)
    (h1 : (responses attempt).status = "completed")
    (h2 : (responses attempt).result = some r)
    (h3 : (wresponses wtick).status = "ready") :
    pollResultsFrom responses (fuel + 1) attempt = MobilePollOutcome.done r
    ∧ webPollFrom wresponses wmax wfuel wtick = WebPollOutcome.resolved (wresponses wtick) := by
  constructor
  · have hc := mobileClassify_of_completed (responses attempt) r h1 h2
    simp [pollResultsFrom, hc]
  · exact webPollFrom_ready wresponses wmax wfuel wtick h3

/-- Witness for the amended C4 theorem at concrete inputs. -/
theorem completed_with_result_terminal_done_witness :
    pollResultsFrom completedStream (0 + 1) 1 = MobilePollOutcome.done sampleFish
    ∧ webPollFrom readyStream 40 40 1 = WebPollOutcome.resolved (readyStream 1) :=
  completed_with_result_terminal_done completedStream readyStream 0 1 40 1 40 sampleFish
    rfl rfl rfl

/-! ### Claim C5 -/

/-- C5: status transitions of the result store are monotone forward only.
Modelled from the spec: the worker writing the records is not under
`src/`; per spec §4.3-§4.4 every write for a key is the record computed
by a fixed deterministic function of the immutable object bytes of a key
(`workerOutcome`), via the unconditional `PutResult` overwrite.  Along
any such sequence of writes for a key with no prior record, the visible
status sequence never moves backward in the order
`pending → processing → {completed, error}` (so never `completed →
pending`), and a terminal status is never replaced by the other
terminal status (no `completed → error` and no `error → completed`,
hence no `error → processing` either). -/
theorem resultStore_status_monotone (workerOutcome : String → ResultRecord)
    (store : ResultStore) (k : String) (n : Nat) (h : store k = none) :
    chainMonotone (statusTrace store k (List.replicate n (workerOutcome k))) = true
    ∧ chainNoFlip (statusTrace store k (List.replicate n (workerOutcome k))) = true := by
  cases n with
  | zero => exact ⟨rfl, rfl⟩
  | succ m =>
    have h0 : statusOf store k = RecStatus.pending := by simp [statusOf, h]
    have ht : statusTrace store k (List.replicate (m + 1) (workerOutcome k))
        = statusOf store k :: List.replicate (m + 1) (workerOutcome k).status := by
      rw [List.replicate_succ]
      show statusOf store k
          :: statusTrace (PutResult store k (workerOutcome k)) k
              (List.replicate m (workerOutcome k))
          = _
      rw [statusTrace_const (workerOutcome k) m (PutResult store k (workerOutcome k)) k
        (PutResult_self store k (workerOutcome k))]
    rw [ht, h0]
    exact ⟨chainMonotone_pending_cons (workerOutcome k).status m,
      chainNoFlip_pending_cons (workerOutcome k).status m⟩

/-- Witness for C5 at a concrete store, key and outcome record. -/
theorem resultStore_status_monotone_witness :
    chainMonotone (statusTrace (fun _ => none) "item"
        (List.replicate 3 ((fun _ => (⟨RecStatus.completed, some "payload", none, 7⟩ : ResultRecord)) "item"))) = true
    ∧ chainNoFlip (statusTrace (fun _ => none) "item"
        (List.replicate 3 ((fun _ => (⟨RecStatus.completed, some "payload", none, 7⟩ : ResultRecord)) "item"))) = true :=
  resultStore_status_monotone (fun _ => ⟨RecStatus.completed, some "payload", none, 7⟩)
    (fun _ => none) "item" 3 rfl

/-! ### Claim C6 -/

/-- C6: `PutResult` is an idempotent full-record overwrite: writing the
same completed record twice leaves `GetStatus` returning exactly that
record (hence that identical payload), and the store after the repeated
write is the very store after the single write — a repeated identical
write changes nothing observable. -/
theorem putResult_idempotent_overwrite (store : ResultStore) (k : String)
    (r : ResultRecord) (h : r.status = RecStatus.completed) :
    GetStatus (PutResult (PutResult store k r) k r) k = some r
    ∧ GetStatus (PutResult store k r) k = some r
    ∧ statusOf (PutResult (PutResult store k r) k r) k = RecStatus.completed
    ∧ PutResult (PutResult store k r) k r = PutResult store k r := by
  refine ⟨by simp [GetStatus, PutResult], by simp [GetStatus, PutResult],
    by simp [statusOf, PutResult, h], ?_⟩
  funext q
  by_cases hq : q = k <;> simp [PutResult, hq]

/-- Witness for C6 at a concrete store, key and completed record. -/
theorem putResult_idempotent_overwrite_witness :
    GetStatus (PutResult (PutResult (fun _ => none) "item"
        ⟨RecStatus.completed, some "payload", none, 7⟩) "item"
        ⟨RecStatus.completed, some "payload", none, 7⟩) "item"
      = some ⟨RecStatus.completed, some "payload", none, 7⟩
    ∧ GetStatus (PutResult (fun _ => none) "item"
        ⟨RecStatus.completed, some "payload", none, 7⟩) "item"
      = some ⟨RecStatus.completed, some "payload", none, 7⟩
    ∧ statusOf (PutResult (PutResult (fun _ => none) "item"
        ⟨RecStatus.completed, some "payload", none, 7⟩) "item"
        ⟨RecStatus.completed, some "payload", none, 7⟩) "item" = RecStatus.completed
    ∧ PutResult (PutResult (fun _ => none) "item"
        ⟨RecStatus.completed, some "payload", none, 7⟩) "item"
        ⟨RecStatus.completed, some "payload", none, 7⟩
      = PutResult (fun _ => none) "item" ⟨RecStatus.completed, some "payload", none, 7⟩ :=
  putResult_idempotent_overwrite (fun _ => none) "item"
    ⟨RecStatus.completed, some "payload", none, 7⟩ rfl

/-! ### Claim C7 -/

/-- C7: every successful object write to the uploads bucket yields at
least one queue message: the notification configuration of `s3.tf`
subscribes the work queue to every `s3:ObjectCreated:*` event, and each
kind of object-created event matches that pattern, so the delivered
message list is never empty (here exactly one message, to the work
queue, carrying the object key). -/
theorem object_write_yields_message (op : S3WriteOp) (key : String) :
    1 ≤ (messagesForEvent bucketNotification (s3EventName op) key).length
    ∧ messagesForEvent bucketNotification (s3EventName op) key
        = [("aws_sqs_queue.fish_queue", key)] := by
  have hmatch : eventPatternMatches "s3:ObjectCreated:*" (s3EventName op) = true := by
    cases op <;> decide
  have hres : messagesForEvent bucketNotification (s3EventName op) key
      = [("aws_sqs_queue.fish_queue", key)] := by
    simp [messagesForEvent, bucketNotification, hmatch, List.filter_cons, List.any_cons]
  exact ⟨by rw [hres]; exact Nat.le_refl 1, hres⟩

/-! ### Claim C8 -/

/-- C8 counterexample: the two terminal rejections are not distinguishable
to the client state machine.  A run that exhausts its attempts and a run
that sees a server-reported error both land `handleIdentify` in the same
terminal `UploadState.error` state — `UploadState` in `HomeScreen.tsx`
has no `timeout` member — even though the two rejections carry different
messages. -/
theorem timeout_collapses_to_error_state_cex :
    homeScreenFinal (pollResultsExcept pendingStream MOBILE_MAX_ATTEMPTS)
        = (UploadState.error, some (timeoutMessage MOBILE_MAX_ATTEMPTS))
    ∧ homeScreenFinal (pollResultsExcept errorStream MOBILE_MAX_ATTEMPTS)
        = (UploadState.error, some "decode failed")
    ∧ timeoutMessage MOBILE_MAX_ATTEMPTS ≠ "decode failed" :=
  ⟨rfl, rfl, by decide⟩

/-- C8 (amended): when the mobile client exhausts its polling attempts
with no terminal status, `pollResults` rejects with its timeout outcome,
which is distinct from a server-error rejection at the promise level;
but the HomeScreen state machine `idle → uploading → processing →
{done | error}` has no separate timeout state, and its catch block maps
both rejections to the one terminal `error` state (the two remain
distinguishable only through the stored `errorMessage` string). -/
theorem timeout_rejection_collapses_to_error (responses : Nat → PollResponse)
    (detail : String) (h : ∀ k, mobileClassify (responses k) = none) :
    pollResults responses MOBILE_MAX_ATTEMPTS = MobilePollOutcome.timeout
    ∧ MobilePollOutcome.timeout ≠ MobilePollOutcome.serverError detail
    ∧ homeScreenFinal (pollResultsExcept responses MOBILE_MAX_ATTEMPTS)
        = (UploadState.error, some (timeoutMessage MOBILE_MAX_ATTEMPTS))
    ∧ homeScreenFinal (Except.error detail) = (UploadState.error, some detail) := by
  have ht : pollResults responses MOBILE_MAX_ATTEMPTS = MobilePollOutcome.timeout :=
    pollResultsFrom_all_none responses h MOBILE_MAX_ATTEMPTS 1
  refine ⟨ht, by simp, ?_, rfl⟩
  simp [pollResultsExcept, ht, homeScreenFinal]

/-- Witness for the amended C8 theorem at a concrete all-pending stream. -/
theorem timeout_rejection_collapses_to_error_witness :
    pollResults pendingStream MOBILE_MAX_ATTEMPTS = MobilePollOutcome.timeout
    ∧ MobilePollOutcome.timeout ≠ MobilePollOutcome.serverError "boom"
    ∧ homeScreenFinal (pollResultsExcept pendingStream MOBILE_MAX_ATTEMPTS)
        = (UploadState.error, some (timeoutMessage MOBILE_MAX_ATTEMPTS))
    ∧ homeScreenFinal (Except.error "boom") = (UploadState.error, some "boom") :=
  timeout_rejection_collapses_to_error pendingStream "boom" (fun _ => rfl)

/-! ### Claim C9 -/

/-- C9 counterexample: the two client poll loops are not equivalent: on
the very same stream of poll responses — every body `status:"completed"`
with a payload — the mobile loop terminates with success while the
webapp loop (which recognises only `"ready"`) classifies the body as
continue-polling and times out. -/
theorem poll_loops_disagree_cex :
    mobileClass ⟨"completed", some sampleFish, none⟩ = PollClass.terminalSuccess
    ∧ webappClass ⟨"completed", some sampleFish, none⟩ = PollClass.continuePolling
    ∧ pollResults completedStream MOBILE_MAX_ATTEMPTS = MobilePollOutcome.done sampleFish
    ∧ pollForResults completedStream = WebPollOutcome.timedOut :=
  ⟨rfl, rfl, rfl, rfl⟩

/-- C9 (amended): the two poll loops agree only on the non-terminal
statuses: both classify `pending` and `processing` as continue-polling;
but the terminal-success status of the mobile loop is `"completed"` (with a
payload present) where that of the webapp is `"ready"` — each classifies the
completion value of the other as continue-polling — and the mobile loop
classifies `"error"` as terminal-error while the webapp loop has no
terminal-error classification for any body status. -/
theorem poll_loops_classification (res : Option FishResult) (e : Option String)
    (r : FishResult) :
    mobileClass ⟨"completed", some r, e⟩ = PollClass.terminalSuccess
    ∧ webappClass ⟨"completed", some r, e⟩ = PollClass.continuePolling
    ∧ webappClass ⟨"ready", res, e⟩ = PollClass.terminalSuccess
    ∧ mobileClass ⟨"ready", res, e⟩ = PollClass.continuePolling
    ∧ mobileClass ⟨"error", res, e⟩ = PollClass.terminalError
    ∧ webappClass ⟨"error", res, e⟩ = PollClass.continuePolling
    ∧ (∀ d : PollResponse, webappClass d ≠ PollClass.terminalError)
    ∧ mobileClass ⟨"pending", res, e⟩ = PollClass.continuePolling
    ∧ webappClass ⟨"pending", res, e⟩ = PollClass.continuePolling
    ∧ mobileClass ⟨"processing", res, e⟩ = PollClass.continuePolling
    ∧ webappClass ⟨"processing", res, e⟩ = PollClass.continuePolling := by
  refine ⟨rfl, rfl, rfl, ?_, ?_, rfl, ?_, ?_, rfl, ?_, rfl⟩
  · cases res <;> rfl
  · cases res <;> rfl
  · intro d
    simp only [webappClass]
    split <;> simp
  · cases res <;> rfl
  · cases res <;> rfl

/-- Witness for the amended C9 theorem at concrete field values. -/
theorem poll_loops_classification_witness :
    mobileClass ⟨"completed", some sampleFish, none⟩ = PollClass.terminalSuccess
    ∧ webappClass ⟨"completed", some sampleFish, none⟩ = PollClass.continuePolling
    ∧ webappClass ⟨"ready", none, none⟩ = PollClass.terminalSuccess
    ∧ mobileClass ⟨"ready", none, none⟩ = PollClass.continuePolling
    ∧ mobileClass ⟨"error", none, none⟩ = PollClass.terminalError
    ∧ webappClass ⟨"error", none, none⟩ = PollClass.continuePolling
    ∧ (∀ d : PollResponse, webappClass d ≠ PollClass.terminalError)
    ∧ mobileClass ⟨"pending", none, none⟩ = PollClass.continuePolling
    ∧ webappClass ⟨"pending", none, none⟩ = PollClass.continuePolling
    ∧ mobileClass ⟨"processing", none, none⟩ = PollClass.continuePolling
    ∧ webappClass ⟨"processing", none, none⟩ = PollClass.continuePolling :=
  poll_loops_classification none none sampleFish

/-! ### Claim C10 -/

/-- C10: the `getCurrentUser` facade never raises: for every
session state it equals the total function mapping an authenticated
session to the email of its user (the Cognito username, which is the email
for the email-based pool) and the absent session to `null`, the SDK
exception being caught and converted to `null`. -/
theorem getCurrentUser_never_raises (session : Option AmplifyUser) :
    getCurrentUser session = session.map (fun u => ⟨u.username⟩)
    ∧ (∀ u : AmplifyUser, getCurrentUser (some u) = some ⟨u.username⟩)
    ∧ getCurrentUser none = none := by
  refine ⟨?_, fun u => rfl, rfl⟩
  cases session <;> rfl
